import Mathlib

/-!
Verification of the artwork-store core of the ArtE web application
(`src/store/artworkSlice.ts` and its drifted in-repo variants): the
fetch-deduplication cache, the display-page → batch-page mapping, the
merge/dedupe engine, the filter/select engine, and the detail-promotion
reducer.  Each TypeScript function is shallowly embedded as an executable
Lean definition keeping the source's semantics (JS string keys become
`String`, JS objects keyed by string become `String → Option _` maps,
optional record fields become `Option _`, JS truthiness checks are made
explicit, rejected promises become `Except`).
-/

namespace ArtE

/-- Provenance of an artwork record, `'rijksmuseum' | 'harvardartmuseums'`
in `src/types/Artwork.ts`. -/
inductive ArtSource where
  | rijksmuseum
  | harvardartmuseums
deriving DecidableEq, Repr

/-- Source filter value, `'all' | 'rijksmuseum' | 'harvardartmuseums'` in
the slice's filter state. -/
inductive SourceFilter where
  | all
  | rijksmuseum
  | harvardartmuseums
deriving DecidableEq, Repr

/-- String form of a source filter, as interpolated into the cache key by
`getCacheKey` (the TS code passes the union-typed string directly). -/
def SourceFilter.toKeyString : SourceFilter → String
  | .all => "all"
  | .rijksmuseum => "rijksmuseum"
  | .harvardartmuseums => "harvardartmuseums"

/-- Embedding of the `Artwork` interface of `src/types/Artwork.ts`.
Required string fields stay `String`; optional fields (`?:` in TS) become
`Option`.  `year?: number` is an integer year, embedded as `Option Int`. -/
structure Artwork where
  id : String
  title : String
  artist : String
  imageUrl : String
  thumbnailUrl : Option String := none
  year : Option Int := none
  description : Option String := none
  medium : Option String := none
  dimensions : Option String := none
  creditLine : Option String := none
  source : ArtSource
  sourceId : String
  url : Option String := none
deriving DecidableEq, Repr

/-- Constant `DISPLAY_PAGE_SIZE = 20` of `artworkSlice.ts`. -/
def DISPLAY_PAGE_SIZE : Int := 20

/-- Constant `FETCH_BATCH_SIZE = 100` of `artworkSlice.ts`. -/
def FETCH_BATCH_SIZE : Int := 100

/-- Embedding of `getCacheKey` from `artworkSlice.ts` lines 76-83: the
six filter dimensions joined by the character `:`. -/
def getCacheKey (query artist dateFrom dateTo medium source : String) : String :=
  query ++ ":" ++ artist ++ ":" ++ dateFrom ++ ":" ++ dateTo ++ ":" ++ medium ++ ":" ++ source

/-- Embedding of the drifted `getCacheKey` variant in `unnamed/part_000`
lines 74-80, which omits the `medium` dimension. -/
def getCacheKeyVariant (query artist dateFrom dateTo source : String) : String :=
  query ++ ":" ++ artist ++ ":" ++ dateFrom ++ ":" ++ dateTo ++ ":" ++ source

/-- Integer ceiling division: `Math.ceil(a / b)` for integers `a` and
positive `b`, via `⌈q⌉ = -⌊-q⌋` (Lean's `/` on `Int` is floor division
for a positive divisor). -/
def jsCeilDiv (a b : Int) : Int := -((-a) / b)

/-- Embedding of `displayPageToFetchPage` from `artworkSlice.ts` lines
87-89: `Math.ceil((displayPage * DISPLAY_PAGE_SIZE) / FETCH_BATCH_SIZE)`. -/
def displayPageToFetchPage (displayPage : Int) : Int :=
  jsCeilDiv (displayPage * DISPLAY_PAGE_SIZE) FETCH_BATCH_SIZE

/-- Cache entry of the `FetchedDataCache` interface: a `fetched` flag and
the list of batch pages already loaded. -/
structure CacheEntry where
  fetched : Bool
  fetchedPages : List Int
deriving DecidableEq, Repr

/-- The `fetchedData` cache, a JS object keyed by cache-key strings. -/
def Cache : Type := String → Option CacheEntry

/-- The empty cache (`fetchedData: {}` of the initial state). -/
def emptyCache : Cache := fun _ => none

/-- Embedding of the cache write in the `fetchArtworks.fulfilled` reducer,
`artworkSlice.ts` lines 345-355: create the entry with `fetched: true` and
`fetchedPages: [fetchPage]` when the key is absent, otherwise set
`fetched` and push `fetchPage` unless already present. -/
def recordFetched (cache : Cache) (key : String) (fetchPage : Int) : Cache :=
  fun k =>
    if k = key then
      match cache key with
      | none => some { fetched := true, fetchedPages := [fetchPage] }
      | some e =>
          some { fetched := true
                 fetchedPages :=
                   if e.fetchedPages.contains fetchPage then e.fetchedPages
                   else e.fetchedPages ++ [fetchPage] }
    else cache k

/-- Embedding of the cache test of `selectShouldFetchForCurrentPage`,
`artworkSlice.ts` lines 488-490: fetch is needed when there is no entry,
the entry is not marked fetched, or the batch page is not recorded. -/
def shouldFetch (cache : Cache) (key : String) (fetchPage : Int) : Bool :=
  match cache key with
  | none => true
  | some e => !e.fetched || !(e.fetchedPages.contains fetchPage)

/-- Embedding of the list-level merge in the `fetchArtworks.fulfilled`
reducer, `artworkSlice.ts` lines 338-341: collect the ids already in the
collection, drop incoming records whose id is present, append the rest in
order. -/
def mergeArtworks (items incoming : List Artwork) : List Artwork :=
  let existingIds := items.map (fun item => item.id)
  items ++ incoming.filter (fun artwork => !(existingIds.contains artwork.id))

/-- JS `Array.prototype.findIndex`, returning `none` instead of `-1`. -/
def jsFindIndex (p : Artwork → Bool) : List Artwork → Option Nat
  | [] => none
  | a :: as => if p a then some 0 else (jsFindIndex p as).map (· + 1)

/-- Embedding of the `fetchArtworkDetail.fulfilled` reducer's collection
update, `artworkSlice.ts` lines 389-394: replace the record at the first
index whose id matches the fetched detail record, else push it. -/
def promoteToDetail (items : List Artwork) (detail : Artwork) : List Artwork :=
  match jsFindIndex (fun item => item.id == detail.id) items with
  | some i => items.set i detail
  | none => items ++ [detail]

/-- Embedding of the guard around the merge and cache write in the
`fetchArtworks.fulfilled` reducer, line 335: both happen only when
`newFetch && artworks.length > 0`; the cache write additionally requires
a truthy (present, non-empty) `cacheKey` (line 344). -/
def fulfilledCacheUpdate (cache : Cache) (newFetch : Bool) (artworks : List Artwork)
    (cacheKey : Option String) (fetchPage : Int) : Cache :=
  if newFetch && decide (artworks.length > 0) then
    match cacheKey with
    | some k => if k = "" then cache else recordFetched cache k fetchPage
    | none => cache
  else cache

/-- Collection update of the same reducer branch (line 335 onward). -/
def fulfilledItemsUpdate (items : List Artwork) (newFetch : Bool)
    (artworks : List Artwork) : List Artwork :=
  if newFetch && decide (artworks.length > 0) then mergeArtworks items artworks else items

/-- Character-list test that `needle` is an initial segment of `hay`. -/
def startsWithChars : List Char → List Char → Bool
  | _, [] => true
  | [], _ :: _ => false
  | a :: as, b :: bs => a == b && startsWithChars as bs

/-- Character-list test that `needle` occurs contiguously in `hay`. -/
def hasSub (hay needle : List Char) : Bool :=
  match hay with
  | [] => startsWithChars [] needle
  | _ :: t => startsWithChars hay needle || hasSub t needle

/-- JS `String.prototype.includes`: substring containment. -/
def jsIncludes (s sub : String) : Bool := hasSub s.data sub.data

/-- JS `String.prototype.toLowerCase`: character-wise lowering. -/
def strLower (s : String) : String := String.mk (s.data.map Char.toLower)

/-- Embedding of the free-text query stage of `selectPaginatedArtworks`,
`artworkSlice.ts` lines 425-431: skipped when the query string is falsy
(empty); otherwise keeps records whose lower-cased title or artist
contains the lower-cased query.  The `description` field is not consulted
in this variant. -/
def queryFilter (query : String) (items : List Artwork) : List Artwork :=
  if query = "" then items
  else
    items.filter (fun item =>
      jsIncludes (strLower item.title) (strLower query) ||
      jsIncludes (strLower item.artist) (strLower query))

/-- Embedding of the query stage of the `selectFilteredItems` variant in
`unnamed/part_000` lines 484-492, which also consults `description`
(an optional field, `|| ''` when absent). -/
def queryFilterVariant (query : String) (items : List Artwork) : List Artwork :=
  if query = "" then items
  else
    items.filter (fun item =>
      jsIncludes (strLower item.title) (strLower query) ||
      jsIncludes (strLower item.artist) (strLower query) ||
      jsIncludes (strLower (item.description.getD "")) (strLower query))

/-- Embedding of the date-range stage of `selectPaginatedArtworks`,
`artworkSlice.ts` lines 450-462.  The TS bounds are strings run through
`parseInt` with a JS truthiness guard: an empty string bound is modelled
as `none`, a numeric string as `some` of its value.  Inside the filter,
`if (!item.year) return false` drops records whose `year` is `undefined`
(here `none`) or `0` (JS falsy). -/
def dateFilter (dateFrom dateTo : Option Int) (items : List Artwork) : List Artwork :=
  match dateFrom, dateTo with
  | none, none => items
  | _, _ =>
    items.filter (fun item =>
      match item.year with
      | none => false
      | some y =>
        if y = 0 then false
        else
          (match dateFrom with | none => true | some f => decide (f ≤ y)) &&
          (match dateTo with | none => true | some t => decide (y ≤ t)))

/-- Pagination slice of the state (`state.artworks.pagination`),
restricted to the fields the fetch thunk reads and writes. -/
structure Pagination where
  currentPage : Int
  pageSize : Int
  rijksTotal : Int
  harvardTotal : Int
  allTotal : Int
  totalPages : Int
deriving DecidableEq, Repr

/-- Argument object of the `fetchArtworks` thunk with its TS defaults. -/
structure FetchArgs where
  query : String := ""
  artist : String := ""
  dateFrom : String := ""
  dateTo : String := ""
  medium : String := ""
  page : Int := 1
  source : SourceFilter := .all
  forceRefresh : Bool := false
deriving DecidableEq, Repr

/-- Payload returned by a fulfilled `fetchArtworks` thunk. -/
structure ThunkResult where
  artworks : List Artwork
  newFetch : Bool
  pagination : Pagination
  cacheKey : Option String := none
  fetchPage : Option Int := none
deriving DecidableEq, Repr

/-- Embedding of the `fetchArtworks` thunk body, `artworkSlice.ts` lines
116-227.  The two provider calls are passed in as `Except` values
(`.error` models a rejected promise from `fetchArtworksList`); the
enclosing `try/catch` with `rejectWithValue` makes the whole computation
an `Except`, so the first provider failure aborts the thunk.  `prev` is
the pagination slice of the current state. -/
def fetchArtworksModel (args : FetchArgs) (cache : Cache) (prev : Pagination)
    (rijksResult harvardResult : Except String (List Artwork)) :
    Except String ThunkResult :=
  let cacheKey := getCacheKey args.query args.artist args.dateFrom args.dateTo
    args.medium args.source.toKeyString
  let fetchPage := displayPageToFetchPage args.page
  if !args.forceRefresh &&
      (match cache cacheKey with
       | some e => e.fetched && e.fetchedPages.contains fetchPage
       | none => false) then
    .ok { artworks := []
          newFetch := false
          pagination := { prev with currentPage := args.page, pageSize := DISPLAY_PAGE_SIZE } }
  else do
    let rijksArtworks ←
      if args.source = .all ∨ args.source = .rijksmuseum then rijksResult else .ok []
    let harvardArtworks ←
      if args.source = .all ∨ args.source = .harvardartmuseums then harvardResult else .ok []
    let rijksTotal :=
      if args.source = .all ∨ args.source = .rijksmuseum then
        max prev.rijksTotal ((rijksArtworks.length : Int) * 10)
      else prev.rijksTotal
    let harvardTotal :=
      if args.source = .all ∨ args.source = .harvardartmuseums then
        max prev.harvardTotal ((harvardArtworks.length : Int) * 10)
      else prev.harvardTotal
    let totalAllItems := rijksTotal + harvardTotal
    .ok { artworks := rijksArtworks ++ harvardArtworks
          newFetch := true
          pagination :=
            { currentPage := args.page
              pageSize := DISPLAY_PAGE_SIZE
              rijksTotal := rijksTotal
              harvardTotal := harvardTotal
              allTotal := totalAllItems
              totalPages :=
                jsCeilDiv
                  (match args.source with
                   | .all => totalAllItems
                   | .rijksmuseum => rijksTotal
                   | .harvardartmuseums => harvardTotal)
                  DISPLAY_PAGE_SIZE }
          cacheKey := some cacheKey
          fetchPage := some fetchPage }

/-- Example record used in concrete instantiations: a Harvard record. -/
def nightArtwork : Artwork :=
  { id := "harvard-1", title := "Night", artist := "Monet", imageUrl := "u",
    year := some 1889, medium := some "oil", source := .harvardartmuseums,
    sourceId := "1" }

/-- Example record whose free-text query hit is only in the description. -/
def descOnlyArtwork : Artwork :=
  { id := "rijks-1", title := "Abstract", artist := "Unknown", imageUrl := "u",
    description := some "a sunset over water", source := .rijksmuseum,
    sourceId := "1" }

/-- Example record with the JS-falsy year `0`. -/
def yearZeroArtwork : Artwork :=
  { id := "rijks-0", title := "Zero", artist := "A", imageUrl := "u",
    year := some 0, source := .rijksmuseum, sourceId := "0" }

/-- Pagination slice of the initial state of `artworkSlice.ts`. -/
def initialPagination : Pagination :=
  { currentPage := 1, pageSize := 20, rijksTotal := 0, harvardTotal := 0,
    allTotal := 0, totalPages := 0 }

/-! General lemmas about the embedded operations. -/

/-- Ceiling division agrees with the rational ceiling. -/
theorem jsCeilDiv_eq_ceil (n : Int) (d : Nat) :
    jsCeilDiv n (d : Int) = ⌈(n : ℚ) / (d : ℚ)⌉ := by
  have h1 : ⌊-((n : ℚ) / (d : ℚ))⌋ = -⌈((n : ℚ) / (d : ℚ))⌉ := Int.floor_neg
  have h2 : -((n : ℚ) / (d : ℚ)) = ((-n : ℤ) : ℚ) / (d : ℚ) := by push_cast; ring
  rw [h2, Rat.floor_intCast_div_natCast] at h1
  unfold jsCeilDiv
  omega

/-- Splitting at a separator character is unambiguous when neither left
part contains the separator. -/
theorem append_sep_inj (c : Char) :
    ∀ (l1 l2 r1 r2 : List Char), c ∉ l1 → c ∉ l2 →
      l1 ++ c :: r1 = l2 ++ c :: r2 → l1 = l2 ∧ r1 = r2 := by
  intro l1
  induction l1 with
  | nil =>
    intro l2 r1 r2 _ h2 heq
    cases l2 with
    | nil => simpa using heq
    | cons b bs =>
      simp only [List.nil_append, List.cons_append, List.cons.injEq] at heq
      exact absurd (by simp [← heq.1] : c ∈ b :: bs) h2
  | cons a as ih =>
    intro l2 r1 r2 h1 h2 heq
    cases l2 with
    | nil =>
      simp only [List.cons_append, List.nil_append, List.cons.injEq] at heq
      exact absurd (by simp [heq.1] : c ∈ a :: as) h1
    | cons b bs =>
      simp only [List.cons_append, List.cons.injEq] at heq
      have hrest := ih bs r1 r2 (fun hm => h1 (List.mem_cons_of_mem a hm))
        (fun hm => h2 (List.mem_cons_of_mem b hm)) heq.2
      exact ⟨by rw [heq.1, hrest.1], hrest.2⟩

/-- Character data of a cache key, in separator-split form. -/
theorem getCacheKey_data (q a df dt m s : String) :
    (getCacheKey q a df dt m s).data =
      q.data ++ ':' ::
        (a.data ++ ':' :: (df.data ++ ':' :: (dt.data ++ ':' :: (m.data ++ ':' :: s.data)))) := by
  simp [getCacheKey, String.data_append]

/-- Characterization of the initial-segment test. -/
theorem startsWithChars_iff :
    ∀ (needle hay : List Char), startsWithChars hay needle = true ↔ ∃ rest, hay = needle ++ rest := by
  intro needle
  induction needle with
  | nil =>
    intro hay
    simp [startsWithChars]
  | cons b bs ih =>
    intro hay
    cases hay with
    | nil => simp [startsWithChars]
    | cons a as =>
      simp only [startsWithChars, Bool.and_eq_true, beq_iff_eq, ih as, List.cons_append,
        List.cons.injEq]
      constructor
      · rintro ⟨hab, rest, hrest⟩
        exact ⟨rest, hab, hrest⟩
      · rintro ⟨rest, hab, hrest⟩
        exact ⟨hab, rest, hrest⟩

/-- Characterization of the contiguous-substring test. -/
theorem hasSub_iff :
    ∀ (hay needle : List Char), hasSub hay needle = true ↔ ∃ l r, hay = l ++ needle ++ r := by
  intro hay
  induction hay with
  | nil =>
    intro needle
    cases needle with
    | nil => simp [hasSub, startsWithChars]
    | cons b bs => simp [hasSub, startsWithChars]
  | cons a t ih =>
    intro needle
    simp only [hasSub, Bool.or_eq_true, startsWithChars_iff, ih]
    constructor
    · rintro (⟨rest, hrest⟩ | ⟨l, r, hl⟩)
      · exact ⟨[], rest, by simpa using hrest⟩
      · exact ⟨a :: l, r, by simp [hl]⟩
    · rintro ⟨l, r, hl⟩
      cases l with
      | nil => exact Or.inl ⟨r, by simpa using hl⟩
      | cons c l' =>
        simp only [List.cons_append, List.cons.injEq] at hl
        exact Or.inr ⟨l', r, hl.2⟩

/-- A search with an everywhere-false predicate finds no index. -/
theorem jsFindIndex_eq_none (p : Artwork → Bool) :
    ∀ l : List Artwork, (∀ x ∈ l, p x = false) → jsFindIndex p l = none := by
  intro l
  induction l with
  | nil => intro _; rfl
  | cons a as ih =>
    intro h
    simp only [jsFindIndex, h a (List.mem_cons_self a as), Bool.false_eq_true, if_false,
      ih (fun x hx => h x (List.mem_cons_of_mem a hx)), Option.map_none']

/-- A successful index search is in bounds. -/
theorem jsFindIndex_lt_length (p : Artwork → Bool) :
    ∀ (l : List Artwork) (i : Nat), jsFindIndex p l = some i → i < l.length := by
  intro l
  induction l with
  | nil => intro i h; simp [jsFindIndex] at h
  | cons a as ih =>
    intro i h
    simp only [jsFindIndex] at h
    by_cases hp : p a
    · simp [hp] at h
      simp [← h]
    · simp only [hp, Bool.false_eq_true, if_false, Option.map_eq_some'] at h
      obtain ⟨j, hj, hij⟩ := h
      have := ih j hj
      simp [← hij, List.length_cons]
      omega

/-- Some matching element yields a successful index search. -/
theorem jsFindIndex_isSome_of_exists (p : Artwork → Bool) :
    ∀ l : List Artwork, (∃ x ∈ l, p x = true) → ∃ i, jsFindIndex p l = some i := by
  intro l
  induction l with
  | nil => rintro ⟨x, hx, _⟩; simp at hx
  | cons a as ih =>
    rintro ⟨x, hx, hpx⟩
    by_cases hp : p a
    · exact ⟨0, by simp [jsFindIndex, hp]⟩
    · rcases List.mem_cons.mp hx with hxa | hxas
      · exact absurd (hxa ▸ hpx) (by simpa using hp)
      · obtain ⟨j, hj⟩ := ih ⟨x, hxas, hpx⟩
        exact ⟨j + 1, by simp [jsFindIndex, hp, hj]⟩

/-- Setting an in-bounds position makes the new value a member. -/
theorem mem_set_of_lt {α : Type} (d : α) :
    ∀ (l : List α) (i : Nat), i < l.length → d ∈ l.set i d := by
  intro l
  induction l with
  | nil => intro i h; simp at h
  | cons a as ih =>
    intro i h
    cases i with
    | zero => simp
    | succ j =>
      simp only [List.set_cons_succ, List.mem_cons]
      exact Or.inr (ih j (by simpa using h))

/-- Detail record sharing `nightArtwork`'s identity with enriched fields. -/
def nightDetailArtwork : Artwork :=
  { nightArtwork with
    description := some "Trees at twilight"
    dimensions := some "73 x 92 cm" }

/-! Claim theorems. -/

/-- C1: the spec requires a fan-out ("all sources") fetch to merge the
successful provider's records and report the failure alongside them.  The
code instead wraps both provider calls in one `try/catch` that
`rejectWithValue`s on the first provider exception: with the Rijksmuseum
provider failing and the Harvard provider returning a record, the whole
thunk rejects and nothing is merged (the default thunk arguments select
`source = 'all'`). -/
theorem fetchArtworks_aborts_on_provider_error :
    fetchArtworksModel {} emptyCache initialPagination
        (.error "ProviderError") (.ok [nightArtwork]) = .error "ProviderError" ∧
    ({} : FetchArgs).source = SourceFilter.all := ⟨rfl, rfl⟩

/-- C2 counterexample: two filter combinations that differ in both the
query and the artist dimension produce the same cache key, because a `:`
inside a filter value is indistinguishable from the separator. -/
theorem getCacheKey_collision :
    getCacheKey "a:b" "c" "" "" "" "all" = getCacheKey "a" "b:c" "" "" "" "all" ∧
    ("a:b" : String) ≠ "a" ∧ ("c" : String) ≠ "b:c" := by decide

/-- C2 (amended): `getCacheKey` includes all six filter dimensions, and
equal fingerprints imply equal filter values in all six dimensions
provided no filter value contains the `:` separator character. -/
theorem getCacheKey_inj_of_no_colon
    (q1 a1 df1 dt1 m1 s1 q2 a2 df2 dt2 m2 s2 : String)
    (hq1 : ':' ∉ q1.data) (hq2 : ':' ∉ q2.data)
    (ha1 : ':' ∉ a1.data) (ha2 : ':' ∉ a2.data)
    (hdf1 : ':' ∉ df1.data) (hdf2 : ':' ∉ df2.data)
    (hdt1 : ':' ∉ dt1.data) (hdt2 : ':' ∉ dt2.data)
    (hm1 : ':' ∉ m1.data) (hm2 : ':' ∉ m2.data)
    (heq : getCacheKey q1 a1 df1 dt1 m1 s1 = getCacheKey q2 a2 df2 dt2 m2 s2) :
    q1 = q2 ∧ a1 = a2 ∧ df1 = df2 ∧ dt1 = dt2 ∧ m1 = m2 ∧ s1 = s2 := by
  have hd := congrArg String.data heq
  rw [getCacheKey_data, getCacheKey_data] at hd
  obtain ⟨e1, hd⟩ := append_sep_inj ':' _ _ _ _ hq1 hq2 hd
  obtain ⟨e2, hd⟩ := append_sep_inj ':' _ _ _ _ ha1 ha2 hd
  obtain ⟨e3, hd⟩ := append_sep_inj ':' _ _ _ _ hdf1 hdf2 hd
  obtain ⟨e4, hd⟩ := append_sep_inj ':' _ _ _ _ hdt1 hdt2 hd
  obtain ⟨e5, hd⟩ := append_sep_inj ':' _ _ _ _ hm1 hm2 hd
  exact ⟨String.ext e1, String.ext e2, String.ext e3, String.ext e4,
    String.ext e5, String.ext hd⟩

/-- C2 witness: the injectivity theorem applied at concrete colon-free
filter values. -/
theorem getCacheKey_inj_of_no_colon_witness :
    ("rembrandt" : String) = "rembrandt" ∧ ("" : String) = "" ∧
    ("1600" : String) = "1600" ∧ ("1700" : String) = "1700" ∧
    ("oil" : String) = "oil" ∧ ("all" : String) = "all" :=
  getCacheKey_inj_of_no_colon "rembrandt" "" "1600" "1700" "oil" "all"
    "rembrandt" "" "1600" "1700" "oil" "all"
    (by decide) (by decide) (by decide) (by decide) (by decide)
    (by decide) (by decide) (by decide) (by decide) (by decide) rfl

/-- C3: cache coherency — immediately after `recordFetched` marks a
fingerprint and batch page, `shouldFetch` for the same fingerprint and
batch page returns false, for every starting cache state. -/
theorem shouldFetch_after_recordFetched (cache : Cache) (key : String) (p : Int) :
    shouldFetch (recordFetched cache key p) key p = false := by
  unfold shouldFetch recordFetched
  simp only [if_pos rfl]
  cases h : cache key with
  | none => simp
  | some e =>
    by_cases hp : p ∈ e.fetchedPages
    · simp [hp]
    · simp [hp]

/-- C4: the merge is deduplicating and idempotent — merging a sequence
into the empty collection twice gives the same size as merging it once;
the existing collection survives as an untouched initial segment (no
overwrite), and every merged element is either an existing record or an
incoming record whose id was not yet present (no append of present ids). -/
theorem mergeArtworks_dedup_idempotent (A items incoming : List Artwork) :
    (mergeArtworks (mergeArtworks [] A) A).length = (mergeArtworks [] A).length ∧
    (mergeArtworks items incoming).take items.length = items ∧
    (∀ a ∈ mergeArtworks items incoming,
      a ∈ items ∨ (a ∈ incoming ∧ a.id ∉ items.map (fun b => b.id))) := by
  refine ⟨?_, ?_, ?_⟩
  · have h0 : mergeArtworks [] A = A := by
      simp [mergeArtworks]
    rw [h0]
    simp only [mergeArtworks, List.length_append, Nat.add_eq_left, List.length_eq_zero,
      List.filter_eq_nil_iff]
    intro a ha
    simp only [List.elem_eq_mem, List.mem_map, Bool.not_eq_false', decide_eq_true_eq,
      List.contains_eq_any_beq]
    simp
    exact ⟨a, ha, rfl⟩
  · simp [mergeArtworks, List.take_left]
  · intro a ha
    simp only [mergeArtworks, List.mem_append, List.mem_filter, Bool.not_eq_true'] at ha
    rcases ha with ha | ⟨hmem, hpred⟩
    · exact Or.inl ha
    · refine Or.inr ⟨hmem, ?_⟩
      intro hmap
      simp only [List.contains_eq_any_beq, List.any_eq_false, beq_iff_eq] at hpred
      obtain ⟨b, hb, hbid⟩ := List.mem_map.mp hmap
      exact hpred b.id (List.mem_map.mpr ⟨b, hb, rfl⟩) hbid.symm

/-- C4 witness: the merge theorem evaluated at a concrete record list. -/
theorem mergeArtworks_dedup_idempotent_witness :
    (mergeArtworks (mergeArtworks [] [nightArtwork]) [nightArtwork]).length =
      (mergeArtworks [] [nightArtwork]).length :=
  (mergeArtworks_dedup_idempotent [nightArtwork] [] []).1

/-- C5 counterexample: a record whose description contains the query
(case-insensitively) while title and artist do not is dropped by the
`selectPaginatedArtworks` query filter, so the claimed
title-OR-artist-OR-description match is false of it; the `part_000`
variant keeps the same record. -/
theorem queryFilter_misses_description_match :
    descOnlyArtwork ∉ queryFilter "sunset" [descOnlyArtwork] ∧
    jsIncludes (strLower (descOnlyArtwork.description.getD ""))
      (strLower "sunset") = true ∧
    descOnlyArtwork ∈ queryFilterVariant "sunset" [descOnlyArtwork] := by decide

/-- C5 (amended): for a non-empty query, the `selectPaginatedArtworks`
query filter keeps a record if and only if the lower-cased query occurs
as a contiguous substring of the lower-cased title OR the lower-cased
artist; the description is not consulted. -/
theorem queryFilter_mem_iff (q : String) (items : List Artwork) (r : Artwork)
    (h : q ≠ "") :
    r ∈ queryFilter q items ↔
      r ∈ items ∧
        ((∃ l t, (strLower r.title).data = l ++ (strLower q).data ++ t) ∨
         (∃ l t, (strLower r.artist).data = l ++ (strLower q).data ++ t)) := by
  unfold queryFilter
  rw [if_neg h, List.mem_filter]
  simp only [jsIncludes, Bool.or_eq_true, hasSub_iff]

/-- C5 witness: the query filter theorem at a concrete record whose title
matches the query case-insensitively. -/
theorem queryFilter_mem_iff_witness :
    nightArtwork ∈ queryFilter "NIGHT" [nightArtwork] :=
  (queryFilter_mem_iff "NIGHT" [nightArtwork] nightArtwork (by decide)).mpr
    ⟨by decide, Or.inl ⟨[], [], by decide⟩⟩

/-- C6: for every display page ≥ 1 the display-to-batch mapping equals
`⌈displayPage * displayPageSize / batchPageSize⌉` over the rationals, and
the required instances hold: pages 1 and 5 map to batch page 1, page 6 to
batch page 2, page 25 to batch page 5. -/
theorem displayPageToFetchPage_is_ceil (p : Int) (hp : 1 ≤ p) :
    displayPageToFetchPage p =
      ⌈((p * DISPLAY_PAGE_SIZE : Int) : ℚ) / ((FETCH_BATCH_SIZE : Int) : ℚ)⌉ ∧
    displayPageToFetchPage 1 = 1 ∧ displayPageToFetchPage 5 = 1 ∧
    displayPageToFetchPage 6 = 2 ∧ displayPageToFetchPage 25 = 5 := by
  refine ⟨?_, by decide, by decide, by decide, by decide⟩
  have h := jsCeilDiv_eq_ceil (p * DISPLAY_PAGE_SIZE) 100
  unfold displayPageToFetchPage
  rw [show ((100 : Nat) : Int) = FETCH_BATCH_SIZE from rfl] at h
  rw [h]
  norm_num [FETCH_BATCH_SIZE]

/-- C6 witness: the mapping theorem applied at display page 25. -/
theorem displayPageToFetchPage_is_ceil_witness :
    (1 : Int) ≤ 25 ∧ displayPageToFetchPage 25 = 5 :=
  ⟨by decide, (displayPageToFetchPage_is_ceil 25 (by decide)).2.2.2.2⟩

/-- C7: the spec requires display pages ≤ 0 to be rejected with an
`InvalidArgument` error, but `displayPageToFetchPage` is a total function
with no validation: it silently returns batch page 0 at display pages 0
and -1, and even a negative batch page at -5. -/
theorem displayPageToFetchPage_nonpositive_silent :
    displayPageToFetchPage 0 = 0 ∧ displayPageToFetchPage (-1) = 0 ∧
    displayPageToFetchPage (-5) = -1 := by decide

/-- C8 counterexample: a record with year 0, which lies inside the bounds
[-5, 5], is nevertheless excluded by the date filter, because the JS
truthiness test `!item.year` conflates year 0 with a missing year. -/
theorem dateFilter_drops_inrange_year_zero :
    yearZeroArtwork.year = some 0 ∧ ((-5 : Int) ≤ 0 ∧ (0 : Int) ≤ 5) ∧
    yearZeroArtwork ∉ dateFilter (some (-5)) (some 5) [yearZeroArtwork] := by decide

/-- C8 (amended): when at least one bound is set, the date filter keeps a
record iff its year is present, non-zero, and within `[dateFrom, dateTo]`
with a missing bound unbounded on that side; records with a missing (or
zero) year are excluded; with no bound set the collection passes through
unchanged (and no text-based year extraction widens the match in this
selector). -/
theorem dateFilter_mem_iff (dateFrom dateTo : Option Int) (items : List Artwork)
    (r : Artwork) :
    (dateFrom ≠ none ∨ dateTo ≠ none →
      (r ∈ dateFilter dateFrom dateTo items ↔
        r ∈ items ∧ ∃ y, r.year = some y ∧ y ≠ 0 ∧
          (∀ f, dateFrom = some f → f ≤ y) ∧ (∀ t, dateTo = some t → y ≤ t))) ∧
    dateFilter none none items = items := by
  constructor
  · intro hb
    cases hdf : dateFrom with
    | none =>
      cases hdt : dateTo with
      | none => simp [hdf, hdt] at hb
      | some t =>
        unfold dateFilter
        rw [List.mem_filter]
        cases hy : r.year with
        | none => simp [hy]
        | some y =>
          by_cases hy0 : y = 0
          · simp [hy, hy0]
          · simp [hy, hy0]
    | some f =>
      unfold dateFilter
      cases hdt : dateTo with
      | none =>
        rw [List.mem_filter]
        cases hy : r.year with
        | none => simp [hy]
        | some y =>
          by_cases hy0 : y = 0
          · simp [hy, hy0]
          · simp [hy, hy0]
      | some t =>
        rw [List.mem_filter]
        cases hy : r.year with
        | none => simp [hy]
        | some y =>
          by_cases hy0 : y = 0
          · simp [hy, hy0]
          · simp [hy, hy0]
  · rfl

/-- C8 witness: the date filter theorem at a record with year 1889 and
the single bound `dateFrom = 1880`. -/
theorem dateFilter_mem_iff_witness :
    nightArtwork ∈ dateFilter (some 1880) none [nightArtwork] :=
  ((dateFilter_mem_iff (some 1880) none [nightArtwork] nightArtwork).1
      (Or.inl (by decide))).mpr
    ⟨by decide, 1889, rfl, by decide, fun f hf => by cases hf; decide,
      fun t ht => by cases ht⟩

/-- C9: detail promotion preserves identity — when some record with the
detail's id is in the collection, promotion keeps the length unchanged
and the detail record becomes a member (replacing the stored record); when
the id is absent, the detail record is appended. -/
theorem promoteToDetail_spec (items : List Artwork) (d : Artwork) :
    ((∃ x ∈ items, x.id = d.id) →
       (promoteToDetail items d).length = items.length ∧ d ∈ promoteToDetail items d) ∧
    ((∀ x ∈ items, x.id ≠ d.id) → promoteToDetail items d = items ++ [d]) := by
  constructor
  · rintro ⟨x, hx, hid⟩
    obtain ⟨i, hi⟩ := jsFindIndex_isSome_of_exists (fun item => item.id == d.id) items
      ⟨x, hx, by simp [hid]⟩
    have hlt := jsFindIndex_lt_length _ items i hi
    unfold promoteToDetail
    rw [hi]
    exact ⟨by simp, mem_set_of_lt d items i hlt⟩
  · intro h
    unfold promoteToDetail
    rw [jsFindIndex_eq_none _ items (fun x hx => by simp [h x hx])]

/-- C9 witness: promoting a detail record over a single-record collection
with the same id keeps length 1 and stores the detail record. -/
theorem promoteToDetail_spec_witness :
    (promoteToDetail [nightArtwork] nightDetailArtwork).length = 1 ∧
    nightDetailArtwork ∈ promoteToDetail [nightArtwork] nightDetailArtwork := by
  have h := (promoteToDetail_spec [nightArtwork] nightDetailArtwork).1
    ⟨nightArtwork, by simp, rfl⟩
  simpa using h

/-- C10: a fulfilled fetch whose artwork list is empty leaves the
fetched-data cache unchanged (the reducer's `length > 0` guard skips the
cache write), so `shouldFetch` for that fingerprint and batch page still
returns true afterwards and the fetch would be re-issued. -/
theorem emptyFulfilledFetch_cache_frame (cache : Cache) (key : String) (p : Int)
    (h : shouldFetch cache key p = true) :
    fulfilledCacheUpdate cache true [] (some key) p = cache ∧
    shouldFetch (fulfilledCacheUpdate cache true [] (some key) p) key p = true := by
  have hc : fulfilledCacheUpdate cache true [] (some key) p = cache := rfl
  exact ⟨hc, by rw [hc]; exact h⟩

/-- C10 witness: the empty-fetch frame theorem on the empty cache. -/
theorem emptyFulfilledFetch_cache_frame_witness :
    fulfilledCacheUpdate emptyCache true [] (some "k") 1 = emptyCache ∧
    shouldFetch (fulfilledCacheUpdate emptyCache true [] (some "k") 1) "k" 1 = true :=
  emptyFulfilledFetch_cache_frame emptyCache "k" 1 rfl

end ArtE
